import Mathlib

/-!
Verification development for the products-management microservice.

The program under study is a NestJS/CQRS microservice managing a catalog of
products stored via Prisma.  This file gives a shallow embedding of its core:
the `Product` domain entity (src/products/domain/model/product.entity.ts), the
Prisma repository adapter (`PrismaProductRepository`), the command and query
handlers, and the DTO validation performed by the global `ValidationPipe`.

Modelling conventions:
- The database is a list of rows (`Store`); SQLite primary-key order is the
  list order.  Row timestamps (`createdAt` / `updatedAt`) are omitted: no
  behaviour under study reads them.
- JS numbers carrying prices are modelled as `Int` (all price logic in the
  source is a comparison with 0 or a copy).
- A storage fault (connection failure etc.) is an explicit `fault : Bool`
  parameter: when true the underlying Prisma call throws.
- Thrown exceptions are an `Except AppError` result. `AppError.rpcErr` is an
  `RpcException` carrying `{status, message}`; `AppError.jsErr` is a plain
  JavaScript `Error`; `AppError.validationReject` is the global
  `ValidationPipe` rejecting a DTO before it reaches a handler.
- Operations that may write return the (possibly updated) store alongside the
  result, so that non-mutation is expressible.
-/

/-- Errors that can propagate out of the core. -/
inductive AppError where
  | rpcErr (status : Nat) (message : String)
  | jsErr (message : String)
  | validationReject
deriving Repr, DecidableEq

deriving instance DecidableEq for Except

/-- The domain `Product` entity (product.entity.ts): id, name, price, available. -/
structure Product where
  id : String
  name : String
  price : Int
  available : Bool
deriving Repr, DecidableEq

/-- The `Product` constructor: `if (price < 0) throw new Error(...)`. -/
def Product.construct (id name : String) (price : Int) (available : Bool) :
    Except AppError Product :=
  if price < 0 then .error (.jsErr "Product price cannot be negative.")
  else .ok ⟨id, name, price, available⟩

/-- JavaScript `String.prototype.trim`: strips leading and trailing
whitespace, modelled over the character list. -/
def jsTrim (s : String) : String :=
  ⟨((s.data.dropWhile Char.isWhitespace).reverse.dropWhile Char.isWhitespace).reverse⟩

/-- `Product.updateDetails(name?, price?)`: mutates in place; the TS method
updates `this.name` (trimmed) before the price check runs, so the returned
pair is (entity state when the call ends, thrown error if any).
`!name || name.trim().length === 0` collapses to `jsTrim name = ""` on strings
(the empty string is the only falsy string). -/
def Product.updateDetails (p : Product) (n? : Option String) (pr? : Option Int) :
    Product × Option AppError :=
  match n? with
  | some n =>
    if jsTrim n = "" then (p, some (.jsErr "Product name cannot be empty."))
    else
      let p1 : Product := { p with name := jsTrim n }
      match pr? with
      | some pr =>
        if pr < 0 then (p1, some (.jsErr "Product price cannot be negative."))
        else ({ p1 with price := pr }, none)
      | none => (p1, none)
  | none =>
    match pr? with
    | some pr =>
      if pr < 0 then (p, some (.jsErr "Product price cannot be negative."))
      else ({ p with price := pr }, none)
    | none => (p, none)

/-- `Product.markAsUnavailable()`. -/
def Product.markAsUnavailable (p : Product) : Product :=
  { p with available := false }

/-- A database row of the `Product` table (schema: id TEXT PRIMARY KEY,
name TEXT, price REAL, available BOOLEAN DEFAULT true). -/
structure DbProduct where
  id : String
  name : String
  price : Int
  available : Bool
deriving Repr, DecidableEq

/-- The database state: rows in primary-key (insertion) order. -/
abbrev Store := List DbProduct

/-- Store well-formedness: `id` is a primary key, and every stored price is
non-negative (all write paths go through the DTO `@Min(0)` check). -/
def WFStore (st : Store) : Prop :=
  (st.map (fun r => r.id)).Nodup ∧ ∀ r ∈ st, 0 ≤ r.price

instance : DecidablePred WFStore := fun st =>
  inferInstanceAs (Decidable (_ ∧ _))

/-- `mapToDomain` on one row: `new Product(id, name, price, available)`. -/
def mapToDomain (r : DbProduct) : Except AppError Product :=
  Product.construct r.id r.name r.price r.available

/-- The untrapped value of `mapToDomain` on a row with non-negative price. -/
def rowToProduct (r : DbProduct) : Product :=
  ⟨r.id, r.name, r.price, r.available⟩

/-- `rows.map(p => this.mapToDomain(p))` inside a try block: the first row on
which the `Product` constructor throws aborts the whole mapping. -/
def mapToDomainList : List DbProduct → Except AppError (List Product)
  | [] => .ok []
  | r :: rs =>
    match mapToDomain r with
    | .error e => .error e
    | .ok p =>
      match mapToDomainList rs with
      | .error e => .error e
      | .ok ps => .ok (p :: ps)

/-- Worker for `jsSetDedup`: `seen` holds the identifiers already emitted. -/
def jsSetDedupGo (seen : List String) : List String → List String
  | [] => []
  | x :: xs =>
    if x ∈ seen then jsSetDedupGo seen xs
    else x :: jsSetDedupGo (x :: seen) xs

/-- `Array.from(new Set(ids))`: deduplication keeping the first occurrence of
each identifier, in input order. -/
def jsSetDedup (l : List String) : List String := jsSetDedupGo [] l

/-- Data passed to `ProductRepositoryPort.create` (`ProductCreateData`). -/
structure ProductCreateData where
  id : String
  name : String
  price : Int
deriving Repr, DecidableEq

/-- The data part of an update (`UpdateProductData`): optional name / price. -/
structure UpdateData where
  name? : Option String
  price? : Option Int
deriving Repr, DecidableEq

/-- `PaginatedProductResult.meta`. -/
structure PageMeta where
  total : Nat
  page : Nat
  lastPage : Nat
deriving Repr, DecidableEq

/-- `PaginatedProductResult`. -/
structure PaginatedProductResult where
  data : List Product
  meta : PageMeta
deriving Repr, DecidableEq

namespace PrismaProductRepository

/-- `PrismaProductRepository.create`: inserts a row (the schema defaults
`available` to true); any Prisma failure — including a primary-key collision —
is caught and rethrown as `RpcException {status: 500}`.  `mapToDomain` runs
inside the same try block, after the insert has already happened. -/
def create (st : Store) (d : ProductCreateData) (fault : Bool) :
    Store × Except AppError Product :=
  if fault ∨ st.any (fun r => decide (r.id = d.id)) then
    (st, .error (.rpcErr 500 "Database error creating product."))
  else
    let row : DbProduct := ⟨d.id, d.name, d.price, true⟩
    let st' := st ++ [row]
    match mapToDomain row with
    | .error _ => (st', .error (.rpcErr 500 "Database error creating product."))
    | .ok p => (st', .ok p)

/-- `PrismaProductRepository.findById`: `findFirst({where: {id, available:
true}})`; the catch block swallows every error and returns null, so the
operation never raises. -/
def findById (st : Store) (id : String) (fault : Bool) : Option Product :=
  if fault then none
  else
    match st.find? (fun r => decide (r.id = id) && r.available) with
    | none => none
    | some r =>
      match mapToDomain r with
      | .error _ => none
      | .ok p => some p

/-- `PrismaProductRepository.findAllAvailablePaginated`: a transaction pairing
`count({where: {available: true}})` with `findMany({skip, take, where:
{available: true}})`, `skip = (page - 1) * limit`, `lastPage =
Math.ceil(total / limit)` (the Nat formula below agrees for `limit ≥ 1`).
Defaults `page = 1, limit = 10` are applied by destructuring before this point;
here the already-defaulted values are taken as arguments. -/
def findAllAvailablePaginated (st : Store) (page limit : Nat) (fault : Bool) :
    Except AppError PaginatedProductResult :=
  if fault then .error (.rpcErr 500 "Database error finding products.")
  else
    let avail := st.filter (fun r => r.available)
    let total := avail.length
    let rows := (avail.drop ((page - 1) * limit)).take limit
    let lastPage := (total + limit - 1) / limit
    match mapToDomainList rows with
    | .error _ => .error (.rpcErr 500 "Database error finding products.")
    | .ok ps => .ok ⟨ps, ⟨total, page, lastPage⟩⟩

/-- `PrismaProductRepository.update`: with no supplied fields it re-reads via
`findById` and throws a plain `Error` when that yields null; otherwise
`prisma.product.update({where: {id}})` — P2025 (no row with this id, available
or not) becomes `RpcException 404`, other failures `RpcException 500`.
`mapToDomain` runs inside the try block after the row was written. -/
def update (st : Store) (id : String) (u : UpdateData) (fault : Bool) :
    Store × Except AppError Product :=
  if u.name?.isNone ∧ u.price?.isNone then
    match findById st id fault with
    | none => (st, .error (.jsErr ("Product #" ++ id ++ " not found for update check.")))
    | some p => (st, .ok p)
  else if fault then
    (st, .error (.rpcErr 500 "Database error updating product."))
  else
    match st.find? (fun r => decide (r.id = id)) with
    | none => (st, .error (.rpcErr 404 ("Product with ID " ++ id ++ " not found for update.")))
    | some r =>
      let r' : DbProduct :=
        { r with name := u.name?.getD r.name, price := u.price?.getD r.price }
      let st' := st.map (fun q =>
        if q.id = id then
          { q with name := u.name?.getD q.name, price := u.price?.getD q.price }
        else q)
      match mapToDomain r' with
      | .error _ => (st', .error (.rpcErr 500 "Database error updating product."))
      | .ok p => (st', .ok p)

/-- The row transformation of `softDelete`: `data: {available: false}` on the
row whose primary key matches. -/
def softDeleteRow (id : String) (r : DbProduct) : DbProduct :=
  if r.id = id then { r with available := false } else r

/-- `PrismaProductRepository.softDelete`: `prisma.product.update({where: {id},
data: {available: false}})`; P2025 becomes `RpcException 404`, other failures
`RpcException 500`. -/
def softDelete (st : Store) (id : String) (fault : Bool) :
    Store × Except AppError Product :=
  if fault then
    (st, .error (.rpcErr 500 "Database error deleting product."))
  else
    match st.find? (fun r => decide (r.id = id)) with
    | none => (st, .error (.rpcErr 404 ("Product with ID " ++ id ++ " not found for deletion.")))
    | some r =>
      let st' := st.map (softDeleteRow id)
      match mapToDomain { r with available := false } with
      | .error _ => (st', .error (.rpcErr 500 "Database error deleting product."))
      | .ok p => (st', .ok p)

/-- `PrismaProductRepository.findAvailableByIds`: empty input short-circuits
before any query; otherwise the ids are deduplicated again and
`findMany({where: {id: {in: uniqueIds}, available: true}})` returns matching
rows in table order. -/
def findAvailableByIds (st : Store) (ids : List String) (fault : Bool) :
    Except AppError (List Product) :=
  if ids.isEmpty then .ok []
  else if fault then .error (.rpcErr 500 "Database error finding products by IDs.")
  else
    let uniqueIds := jsSetDedup ids
    let rows := st.filter (fun r => r.available && decide (r.id ∈ uniqueIds))
    match mapToDomainList rows with
    | .error _ => .error (.rpcErr 500 "Database error finding products by IDs.")
    | .ok ps => .ok ps

end PrismaProductRepository

/-- The message carried by a caught error (`error.message`); an
`RpcException` built from an object exposes that object's message. -/
def AppError.caughtMessage : AppError → String
  | .rpcErr _ m => m
  | .jsErr m => m
  | .validationReject => "Bad Request Exception"

/-- The catch block shared by the Update/Delete/FindOne/Validate handlers:
`if (error instanceof RpcException) throw error;` else wrap into
`RpcException {status: error.status || 500, message: error.message}` — a plain
`Error` has no `status`, so the wrap always carries 500. -/
def rethrowOr500 (e : AppError) : AppError :=
  match e with
  | .rpcErr s m => .rpcErr s m
  | .jsErr m => .rpcErr 500 m
  | .validationReject => .validationReject

namespace Handlers

/-- `CreateProductHandler.execute`: generates a UUID (modelled as the external
argument `genId`), calls the repository, and on any failure wraps it into
`RpcException {status: error.status || 500, message: error.message}` without
an instanceof check — so the wrapped status is always 500. -/
def createProduct (st : Store) (name : String) (price : Int) (genId : String)
    (fault : Bool) : Store × Except AppError Product :=
  match PrismaProductRepository.create st ⟨genId, name, price⟩ fault with
  | (st', .ok p) => (st', .ok p)
  | (st', .error e) => (st', .error (.rpcErr 500 e.caughtMessage))

/-- `FindOneProductHandler.execute`: `findById`, null → `RpcException 404`. -/
def findOneProduct (st : Store) (id : String) (fault : Bool) :
    Except AppError Product :=
  match PrismaProductRepository.findById st id fault with
  | none => .error (.rpcErr 404 ("Product with id #" ++ id ++ " not found or not available"))
  | some p => .ok p

/-- `FindAllProductsHandler.execute`: delegates to the repository; its catch
block replaces any failure with `RpcException {status: 500, message:
'Database error finding products.'}`. -/
def findAllProducts (st : Store) (page limit : Nat) (fault : Bool) :
    Except AppError PaginatedProductResult :=
  match PrismaProductRepository.findAllAvailablePaginated st page limit fault with
  | .ok r => .ok r
  | .error _ => .error (.rpcErr 500 "Database error finding products.")

/-- `UpdateProductHandler.execute`: `findById` first (null → `RpcException
404`), then the repository update; `RpcException`s are rethrown unchanged,
anything else is wrapped with status 500. -/
def updateProduct (st : Store) (id : String) (u : UpdateData) (fault : Bool) :
    Store × Except AppError Product :=
  match PrismaProductRepository.findById st id fault with
  | none => (st, .error (.rpcErr 404 ("Product with id #" ++ id ++ " not found or not available")))
  | some _ =>
    match PrismaProductRepository.update st id u fault with
    | (st', .ok p) => (st', .ok p)
    | (st', .error e) => (st', .error (rethrowOr500 e))

/-- `DeleteProductHandler.execute`: `findById` first (null → `RpcException
404`), then `softDelete`; `RpcException`s are rethrown unchanged. -/
def deleteProduct (st : Store) (id : String) (fault : Bool) :
    Store × Except AppError Product :=
  match PrismaProductRepository.findById st id fault with
  | none => (st, .error (.rpcErr 404 ("Product with id #" ++ id ++ " not found or already unavailable")))
  | some _ =>
    match PrismaProductRepository.softDelete st id fault with
    | (st', .ok p) => (st', .ok p)
    | (st', .error e) => (st', .error (rethrowOr500 e))

/-- `missingIds.join(', ')` interpolated into the validation message. -/
def missingMessage (missing : List String) : String :=
  "Some products were not found or are unavailable: " ++ String.intercalate ", " missing

/-- `ValidateProductsHandler.execute`: deduplicates the ids, returns `[]`
immediately when none remain, otherwise queries `findAvailableByIds` and
fails with `RpcException {status: 400}` (HttpStatus.BAD_REQUEST) listing
`uniqueIds.filter(id => !foundIds.includes(id))` whenever the counts differ. -/
def validateProducts (st : Store) (ids : List String) (fault : Bool) :
    Except AppError (List Product) :=
  let uniqueIds := jsSetDedup ids
  if uniqueIds.isEmpty then .ok []
  else
    match PrismaProductRepository.findAvailableByIds st uniqueIds fault with
    | .error e => .error (rethrowOr500 e)
    | .ok products =>
      if products.length ≠ uniqueIds.length then
        let foundIds := products.map (fun p => p.id)
        let missingIds := uniqueIds.filter (fun i => !(decide (i ∈ foundIds)))
        .error (.rpcErr 400 (missingMessage missingIds))
      else .ok products

end Handlers

/-- `CreateProductDto`: `name` `@IsString()`, `price` `@IsNumber @Min(0)`.
(The `maxDecimalPlaces: 4` constraint is vacuous over the `Int` model.) -/
structure CreateProductDto where
  name : String
  price : Int
deriving Repr, DecidableEq

/-- The global `ValidationPipe` check on `CreateProductDto`: any string name
passes `@IsString()`; the price must pass `@Min(0)`. -/
def validCreateDto (d : CreateProductDto) : Bool :=
  decide (0 ≤ d.price)

/-- `UpdateProductDto extends PartialType(CreateProductDto)` plus a UUID id:
name and price become optional but keep their validators when supplied. -/
structure UpdateProductDto where
  id : String
  name? : Option String
  price? : Option Int
deriving Repr, DecidableEq

/-- The global `ValidationPipe` check on `UpdateProductDto`: a supplied price
must pass `@Min(0)`; a supplied name passes `@IsString()`. -/
def validUpdateDto (d : UpdateProductDto) : Bool :=
  match d.price? with
  | some p => decide (0 ≤ p)
  | none => true

/-- The `create_product` message path: `ValidationPipe` on the DTO, then the
create handler.  A rejected DTO never reaches the handler, so the store is
untouched. -/
def createEndpoint (st : Store) (dto : CreateProductDto) (genId : String)
    (fault : Bool) : Store × Except AppError Product :=
  if validCreateDto dto then Handlers.createProduct st dto.name dto.price genId fault
  else (st, .error .validationReject)

/-- The `update_product` message path: `ValidationPipe` on the DTO, then the
update handler on `{name?, price?}` with the id split off (as in the
controller). A rejected DTO never reaches the handler. -/
def updateEndpoint (st : Store) (dto : UpdateProductDto) (fault : Bool) :
    Store × Except AppError Product :=
  if validUpdateDto dto then Handlers.updateProduct st dto.id ⟨dto.name?, dto.price?⟩ fault
  else (st, .error .validationReject)

/-! ## Shared lemmas -/

theorem mapToDomainList_ok (rs : List DbProduct) (h : ∀ r ∈ rs, 0 ≤ r.price) :
    mapToDomainList rs = .ok (rs.map rowToProduct) := by
  induction rs with
  | nil => rfl
  | cons r rs ih =>
    have hr : ¬ r.price < 0 := not_lt.mpr (h r (List.mem_cons_self r rs))
    have hrs : ∀ q ∈ rs, 0 ≤ q.price := fun q hq => h q (List.mem_cons_of_mem r hq)
    simp [mapToDomainList, mapToDomain, Product.construct, hr, ih hrs, rowToProduct]

theorem mem_jsSetDedupGo (x : String) (seen l : List String) :
    x ∈ jsSetDedupGo seen l ↔ (x ∈ l ∧ x ∉ seen) := by
  induction l generalizing seen with
  | nil => simp [jsSetDedupGo]
  | cons y ys ih =>
    by_cases hy : y ∈ seen
    · rw [jsSetDedupGo, if_pos hy, ih]
      constructor
      · rintro ⟨h1, h2⟩
        exact ⟨List.mem_cons_of_mem y h1, h2⟩
      · rintro ⟨h1, h2⟩
        rcases List.mem_cons.mp h1 with rfl | h1
        · exact absurd hy h2
        · exact ⟨h1, h2⟩
    · rw [jsSetDedupGo, if_neg hy]
      constructor
      · intro hmem
        rcases List.mem_cons.mp hmem with rfl | hmem
        · exact ⟨List.mem_cons_self x ys, hy⟩
        · obtain ⟨h1, h2⟩ := (ih (y :: seen)).mp hmem
          exact ⟨List.mem_cons_of_mem y h1,
            fun hx => h2 (List.mem_cons_of_mem y hx)⟩
      · rintro ⟨h1, h2⟩
        rcases List.mem_cons.mp h1 with rfl | h1
        · exact List.mem_cons_self x _
        · by_cases hxy : x = y
          · subst hxy
            exact List.mem_cons_self x _
          · refine List.mem_cons_of_mem y ((ih (y :: seen)).mpr ⟨h1, ?_⟩)
            intro hx
            rcases List.mem_cons.mp hx with h | h
            · exact hxy h
            · exact h2 h

theorem mem_jsSetDedup (x : String) (l : List String) :
    x ∈ jsSetDedup l ↔ x ∈ l := by
  rw [jsSetDedup, mem_jsSetDedupGo]
  simp

theorem jsSetDedup_ne_nil (x : String) (l : List String) :
    jsSetDedup (x :: l) ≠ [] := by
  simp [jsSetDedup, jsSetDedupGo]

/-! ## Claims -/

/-- C10: `PrismaProductRepository.findById` never raises — its catch block
turns every storage failure into null — so a lookup-time storage failure makes
the FindOne, Update, and Delete handlers fail with the 404 `NotFoundError`
rather than a 500 `StorageError`. -/
theorem findById_fault_yields_not_found (st : Store) (id : String) (u : UpdateData) :
    PrismaProductRepository.findById st id true = none ∧
    Handlers.findOneProduct st id true =
      .error (.rpcErr 404 ("Product with id #" ++ id ++ " not found or not available")) ∧
    Handlers.updateProduct st id u true =
      (st, .error (.rpcErr 404 ("Product with id #" ++ id ++ " not found or not available"))) ∧
    Handlers.deleteProduct st id true =
      (st, .error (.rpcErr 404 ("Product with id #" ++ id ++ " not found or already unavailable"))) := by
  refine ⟨rfl, ?_, ?_, ?_⟩ <;>
    simp [Handlers.findOneProduct, Handlers.updateProduct, Handlers.deleteProduct,
      PrismaProductRepository.findById]

/-- C4: an update whose changes carry a negative price is rejected by the
`ValidationPipe` (`@Min(0)` inherited from `CreateProductDto`) before any
handler runs, so the command fails with a validation error and the store —
in particular the stored price of the targeted product — is unchanged. -/
theorem update_negative_price_rejected (st : Store) (dto : UpdateProductDto)
    (p : Product) (pr : Int) (fault : Bool)
    (hA : PrismaProductRepository.findById st dto.id false = some p)
    (hpr : dto.price? = some pr) (hneg : pr < 0) :
    updateEndpoint st dto fault = (st, .error .validationReject) := by
  have hv : validUpdateDto dto = false := by
    simp only [validUpdateDto, hpr, decide_eq_false_iff_not, not_le]
    exact hneg
  simp [updateEndpoint, hv]

theorem update_negative_price_rejected_witness :
    PrismaProductRepository.findById [⟨"a", "x", 5, true⟩] "a" false =
      some ⟨"a", "x", 5, true⟩ ∧
    (⟨"a", none, some (-5)⟩ : UpdateProductDto).price? = some (-5) ∧
    (-5 : Int) < 0 ∧
    updateEndpoint [⟨"a", "x", 5, true⟩] ⟨"a", none, some (-5)⟩ false =
      ([⟨"a", "x", 5, true⟩], .error .validationReject) :=
  ⟨by decide, rfl, by decide,
    update_negative_price_rejected _ _ ⟨"a", "x", 5, true⟩ (-5) false
      (by decide) rfl (by decide)⟩

/-- C6: for a valid input (price ≥ 0) and a fresh handler-generated identifier,
Create appends a row and returns a Product with exactly that id, the given
name and price, and `available = true`; any repository failure during creation
surfaces as the 500 `StorageError`. -/
theorem create_returns_available_product (st : Store) (dto : CreateProductDto)
    (genId : String) (hval : 0 ≤ dto.price) (hfresh : ∀ r ∈ st, r.id ≠ genId) :
    createEndpoint st dto genId false =
      (st ++ [⟨genId, dto.name, dto.price, true⟩],
       .ok ⟨genId, dto.name, dto.price, true⟩) ∧
    createEndpoint st dto genId true =
      (st, .error (.rpcErr 500 "Database error creating product.")) := by
  have hv : validCreateDto dto = true := by
    simp [validCreateDto, hval]
  constructor
  · have hany : st.any (fun r => decide (r.id = genId)) = false := by
      simp only [List.any_eq_false, decide_eq_true_eq]
      exact hfresh
    simp [createEndpoint, hv, Handlers.createProduct, PrismaProductRepository.create,
      hany, mapToDomain, Product.construct, not_lt.mpr hval]
  · simp [createEndpoint, hv, Handlers.createProduct, PrismaProductRepository.create,
      AppError.caughtMessage]

theorem create_returns_available_product_witness :
    (0 : Int) ≤ (⟨"thing", 7⟩ : CreateProductDto).price ∧
    (∀ r ∈ ([⟨"a", "x", 5, true⟩] : Store), r.id ≠ "b") ∧
    createEndpoint [⟨"a", "x", 5, true⟩] ⟨"thing", 7⟩ "b" false =
      ([⟨"a", "x", 5, true⟩, ⟨"b", "thing", 7, true⟩],
       .ok ⟨"b", "thing", 7, true⟩) :=
  ⟨by decide, by decide,
    (create_returns_available_product [⟨"a", "x", 5, true⟩] ⟨"thing", 7⟩ "b"
      (by decide) (by decide)).1⟩

/-- C7 counterexample: `updateDetails("New", -1)` on a product named "Old"
fails with the negative-price error, yet the entity's name has already been
mutated to "New" — partial mutation does occur on failure. -/
theorem updateDetails_partial_mutation_cex :
    Product.updateDetails ⟨"a", "Old", 10, true⟩ (some "New") (some (-1)) =
      (⟨"a", "New", 10, true⟩, some (.jsErr "Product price cannot be negative.")) ∧
    ("New" : String) ≠ "Old" := by decide

/-- C7 (amended): on a failed `updateDetails` call the id, price and available
fields are unchanged and unsupplied fields are never modified; a failure on
the name check mutates nothing; but when a name with non-empty trim is
supplied together with a negative price, the failed call has already stored
the trimmed name. -/
theorem updateDetails_failure_mutation_extent (p p' : Product)
    (n? : Option String) (pr? : Option Int) (e : AppError)
    (h : p.updateDetails n? pr? = (p', some e)) :
    p'.id = p.id ∧ p'.price = p.price ∧ p'.available = p.available ∧
    (n? = none → p'.name = p.name) ∧
    (∀ n, n? = some n → jsTrim n = "" → p' = p) ∧
    (∀ n, n? = some n → jsTrim n ≠ "" → p'.name = jsTrim n) := by
  cases n? with
  | none =>
    cases pr? with
    | none => simp [Product.updateDetails] at h
    | some pr =>
      by_cases hpr : pr < 0
      · simp only [Product.updateDetails, if_pos hpr, Prod.mk.injEq] at h
        obtain ⟨rfl, -⟩ := h
        simp
      · simp [Product.updateDetails, hpr] at h
  | some n =>
    by_cases ht : jsTrim n = ""
    · simp only [Product.updateDetails, if_pos ht, Prod.mk.injEq] at h
      obtain ⟨rfl, -⟩ := h
      simp [ht]
    · cases pr? with
      | none => simp [Product.updateDetails, ht] at h
      | some pr =>
        by_cases hpr : pr < 0
        · simp only [Product.updateDetails, if_neg ht, if_pos hpr, Prod.mk.injEq] at h
          obtain ⟨rfl, -⟩ := h
          simp [ht]
        · simp [Product.updateDetails, ht, hpr] at h

theorem updateDetails_failure_mutation_extent_witness :
    Product.updateDetails ⟨"a", "Old", 10, true⟩ (some "New") (some (-1)) =
      (⟨"a", "New", 10, true⟩, some (.jsErr "Product price cannot be negative.")) ∧
    ((⟨"a", "New", 10, true⟩ : Product).id = (⟨"a", "Old", 10, true⟩ : Product).id ∧
     (⟨"a", "New", 10, true⟩ : Product).price = (⟨"a", "Old", 10, true⟩ : Product).price ∧
     (⟨"a", "New", 10, true⟩ : Product).available = (⟨"a", "Old", 10, true⟩ : Product).available ∧
     ((some "New" : Option String) = none →
       (⟨"a", "New", 10, true⟩ : Product).name = (⟨"a", "Old", 10, true⟩ : Product).name) ∧
     (∀ n, (some "New" : Option String) = some n → jsTrim n = "" →
       (⟨"a", "New", 10, true⟩ : Product) = ⟨"a", "Old", 10, true⟩) ∧
     (∀ n, (some "New" : Option String) = some n → jsTrim n ≠ "" →
       (⟨"a", "New", 10, true⟩ : Product).name = jsTrim n)) :=
  ⟨by decide,
    updateDetails_failure_mutation_extent ⟨"a", "Old", 10, true⟩ ⟨"a", "New", 10, true⟩
      (some "New") (some (-1)) (.jsErr "Product price cannot be negative.") (by decide)⟩

/-- C8 counterexample: `update` with no supplied fields on an id that has no
record fails with a plain JavaScript `Error` — not the 404 `NotFoundError`
produced on the written path. -/
theorem update_no_fields_missing_record_cex :
    PrismaProductRepository.update [] "z" ⟨none, none⟩ false =
      ([], .error (.jsErr "Product #z not found for update check.")) ∧
    AppError.jsErr "Product #z not found for update check." ≠
      AppError.rpcErr 404 "Product with ID z not found for update." := by decide

/-- C8 (amended): `update` with no supplied fields returns the current stored
state without a write when `findById` finds the record, but fails with a plain
`Error` (not `NotFoundError`) when the lookup yields absent; with at least one
supplied field, `update` fails with the 404 `NotFoundError` whenever no record
with that id exists. -/
theorem update_no_fields_and_missing_record (st : Store) (id : String) (u : UpdateData) :
    (u.name? = none → u.price? = none →
      ((∀ p, PrismaProductRepository.findById st id false = some p →
          PrismaProductRepository.update st id u false = (st, .ok p)) ∧
       (PrismaProductRepository.findById st id false = none →
          PrismaProductRepository.update st id u false =
            (st, .error (.jsErr ("Product #" ++ id ++ " not found for update check.")))))) ∧
    ((u.name?.isSome ∨ u.price?.isSome) → (∀ r ∈ st, r.id ≠ id) →
      PrismaProductRepository.update st id u false =
        (st, .error (.rpcErr 404 ("Product with ID " ++ id ++ " not found for update.")))) := by
  constructor
  · intro hn hp
    constructor
    · intro p hfind
      simp [PrismaProductRepository.update, hn, hp, hfind]
    · intro hfind
      simp [PrismaProductRepository.update, hn, hp, hfind]
  · intro hsome hnone
    have hcond : ¬ (u.name?.isNone = true ∧ u.price?.isNone = true) := by
      rcases hsome with h | h <;> intro ⟨h1, h2⟩
      · rw [Option.isSome_iff_ne_none] at h
        exact h (Option.isNone_iff_eq_none.mp h1)
      · rw [Option.isSome_iff_ne_none] at h
        exact h (Option.isNone_iff_eq_none.mp h2)
    have hfind : st.find? (fun r => decide (r.id = id)) = none := by
      apply List.find?_eq_none.mpr
      intro r hr
      simp [hnone r hr]
    simp only [PrismaProductRepository.update, if_neg hcond, Bool.false_eq_true,
      if_false, hfind]

theorem update_no_fields_and_missing_record_witness :
    ((⟨none, none⟩ : UpdateData).name? = none ∧
     (⟨none, none⟩ : UpdateData).price? = none ∧
     PrismaProductRepository.findById [⟨"a", "x", 2, true⟩] "a" false =
       some ⟨"a", "x", 2, true⟩ ∧
     PrismaProductRepository.update [⟨"a", "x", 2, true⟩] "a" ⟨none, none⟩ false =
       ([⟨"a", "x", 2, true⟩], .ok ⟨"a", "x", 2, true⟩)) ∧
    ((⟨some "y", none⟩ : UpdateData).name?.isSome = true ∧
     (∀ r ∈ ([] : Store), r.id ≠ "z") ∧
     PrismaProductRepository.update [] "z" ⟨some "y", none⟩ false =
       ([], .error (.rpcErr 404 "Product with ID z not found for update."))) :=
  ⟨⟨rfl, rfl, by decide,
     ((update_no_fields_and_missing_record [⟨"a", "x", 2, true⟩] "a" ⟨none, none⟩).1
       rfl rfl).1 ⟨"a", "x", 2, true⟩ (by decide)⟩,
   ⟨rfl, by decide,
     (update_no_fields_and_missing_record [] "z" ⟨some "y", none⟩).2
       (Or.inl rfl) (by decide)⟩⟩

/-- C5 counterexample: a Create with an empty name passes the DTO check
(`@IsString()` only), passes the entity constructor (which validates only the
price), and stores a product whose name is empty — the non-empty-name
invariant is not enforced on the create path, neither by the entity nor
anywhere else. -/
theorem create_empty_name_cex :
    createEndpoint [] ⟨"", 5⟩ "p1" false =
      ([⟨"p1", "", 5, true⟩], .ok ⟨"p1", "", 5, true⟩) ∧
    jsTrim "" = "" := by decide

/-- C5 (amended): only `Product.updateDetails` enforces the name invariant —
after a successful call that supplies a name, the entity's name is the trimmed
input and is non-empty; the create path performs no name validation (the
entity constructor checks only the price and `CreateProductDto` only that the
name is a string), so a successful Create can store an empty or
whitespace-only name. -/
theorem updateDetails_name_nonempty (p p' : Product) (n : String) (pr? : Option Int)
    (h : p.updateDetails (some n) pr? = (p', none)) :
    p'.name = jsTrim n ∧ p'.name ≠ "" := by
  by_cases ht : jsTrim n = ""
  · simp [Product.updateDetails, ht] at h
  · cases pr? with
    | none =>
      simp only [Product.updateDetails, if_neg ht, Prod.mk.injEq] at h
      obtain ⟨rfl, -⟩ := h
      exact ⟨rfl, ht⟩
    | some pr =>
      by_cases hpr : pr < 0
      · simp [Product.updateDetails, ht, hpr] at h
      · simp only [Product.updateDetails, if_neg ht, if_neg hpr, Prod.mk.injEq] at h
        obtain ⟨rfl, -⟩ := h
        exact ⟨rfl, ht⟩

theorem updateDetails_name_nonempty_witness :
    Product.updateDetails ⟨"a", "Old", 3, true⟩ (some " New ") none =
      (⟨"a", "New", 3, true⟩, none) ∧
    ((⟨"a", "New", 3, true⟩ : Product).name = jsTrim " New " ∧
     (⟨"a", "New", 3, true⟩ : Product).name ≠ "") :=
  ⟨by decide,
    updateDetails_name_nonempty ⟨"a", "Old", 3, true⟩ ⟨"a", "New", 3, true⟩
      " New " none (by decide)⟩

theorem findAvailableByIds_run (st : Store) (ids : List String) (hne : ids ≠ [])
    (hwf : ∀ r ∈ st, 0 ≤ r.price) :
    PrismaProductRepository.findAvailableByIds st ids false =
      .ok ((st.filter (fun r => r.available && decide (r.id ∈ ids))).map rowToProduct) := by
  have hisE : ids.isEmpty = false := by
    cases ids with
    | nil => exact absurd rfl hne
    | cons x xs => rfl
  have hfilter :
      st.filter (fun r => r.available && decide (r.id ∈ jsSetDedup ids)) =
        st.filter (fun r => r.available && decide (r.id ∈ ids)) := by
    apply List.filter_congr
    intro r _
    rw [decide_eq_decide.mpr (mem_jsSetDedup r.id ids)]
  have hsub : ∀ q ∈ st.filter (fun r => r.available && decide (r.id ∈ ids)), 0 ≤ q.price :=
    fun q hq => hwf q (List.mem_filter.mp hq).1
  simp only [PrismaProductRepository.findAvailableByIds, hisE, Bool.false_eq_true,
    if_false, hfilter, mapToDomainList_ok _ hsub]

theorem validateProducts_run (st : Store) (ids : List String) (hne : ids ≠ [])
    (hwf : ∀ r ∈ st, 0 ≤ r.price) :
    Handlers.validateProducts st ids false =
      (if ((st.filter (fun r => r.available && decide (r.id ∈ jsSetDedup ids))).map rowToProduct).length
            ≠ (jsSetDedup ids).length then
        .error (.rpcErr 400 (Handlers.missingMessage
          ((jsSetDedup ids).filter (fun i =>
            !(decide (i ∈ ((st.filter (fun r => r.available && decide (r.id ∈ jsSetDedup ids))).map rowToProduct).map (fun p => p.id)))))))
      else
        .ok ((st.filter (fun r => r.available && decide (r.id ∈ jsSetDedup ids))).map rowToProduct)) := by
  obtain ⟨x, xs, rfl⟩ := List.exists_cons_of_ne_nil hne
  have hUne : jsSetDedup (x :: xs) ≠ [] := jsSetDedup_ne_nil x xs
  have hUisE : (jsSetDedup (x :: xs)).isEmpty = false := by
    cases hU : jsSetDedup (x :: xs) with
    | nil => exact absurd hU hUne
    | cons y ys => rfl
  have hUfilter :
      st.filter (fun r => r.available && decide (r.id ∈ jsSetDedup (jsSetDedup (x :: xs)))) =
        st.filter (fun r => r.available && decide (r.id ∈ jsSetDedup (x :: xs))) := by
    apply List.filter_congr
    intro r _
    rw [decide_eq_decide.mpr (mem_jsSetDedup r.id (jsSetDedup (x :: xs)))]
  rw [Handlers.validateProducts]
  simp only [hUisE, Bool.false_eq_true, if_false,
    findAvailableByIds_run st (jsSetDedup (x :: xs)) hUne hwf]

/-- C2: ValidateBatch is all-or-nothing.  An empty input returns `[]` without
error and without touching storage (true for every fault state); otherwise,
with `U` the deduplicated identifiers and `F` the available products matching
`U` (in table order), a shortfall `|F| < |U|` fails with the 400
`ValidationError` enumerating exactly the identifiers of `U` missing from the
found products' ids, and `|F| = |U|` returns all of `F`. -/
theorem validateProducts_all_or_nothing (st : Store) (ids : List String)
    (hwf : ∀ r ∈ st, 0 ≤ r.price) :
    (ids = [] → ∀ fault, Handlers.validateProducts st ids fault = .ok []) ∧
    (((st.filter (fun r => r.available && decide (r.id ∈ jsSetDedup ids))).map rowToProduct).length
        < (jsSetDedup ids).length →
      Handlers.validateProducts st ids false =
        .error (.rpcErr 400 (Handlers.missingMessage
          ((jsSetDedup ids).filter (fun i =>
            !(decide (i ∈ ((st.filter (fun r => r.available && decide (r.id ∈ jsSetDedup ids))).map rowToProduct).map (fun p => p.id)))))))) ∧
    (((st.filter (fun r => r.available && decide (r.id ∈ jsSetDedup ids))).map rowToProduct).length
        = (jsSetDedup ids).length →
      Handlers.validateProducts st ids false =
        .ok ((st.filter (fun r => r.available && decide (r.id ∈ jsSetDedup ids))).map rowToProduct)) := by
  refine ⟨?_, ?_, ?_⟩
  · rintro rfl fault
    simp [Handlers.validateProducts, jsSetDedup, jsSetDedupGo]
  · intro hlt
    have hne : ids ≠ [] := by
      rintro rfl
      simp [jsSetDedup, jsSetDedupGo] at hlt
    rw [validateProducts_run st ids hne hwf, if_pos (Nat.ne_of_lt hlt)]
  · intro heq
    by_cases hne : ids = []
    · subst hne
      simp [Handlers.validateProducts, jsSetDedup, jsSetDedupGo]
    · rw [validateProducts_run st ids hne hwf, if_neg (by omega)]

theorem validateProducts_all_or_nothing_witness :
    (∀ r ∈ ([⟨"a", "A", 10, true⟩, ⟨"b", "B", 20, true⟩] : Store), 0 ≤ r.price) ∧
    Handlers.validateProducts [⟨"a", "A", 10, true⟩, ⟨"b", "B", 20, true⟩]
        ["a", "b", "c"] false =
      .error (.rpcErr 400 "Some products were not found or are unavailable: c") ∧
    Handlers.validateProducts [⟨"a", "A", 10, true⟩, ⟨"b", "B", 20, true⟩] [] true =
      .ok [] := by
  refine ⟨by decide, ?_, ?_⟩
  · have h := (validateProducts_all_or_nothing
      [⟨"a", "A", 10, true⟩, ⟨"b", "B", 20, true⟩] ["a", "b", "c"]
      (by decide)).2.1 (by decide)
    rw [h]
    decide
  · exact (validateProducts_all_or_nothing
      [⟨"a", "A", 10, true⟩, ⟨"b", "B", 20, true⟩] [] (by decide)).1 rfl true

theorem findById_some_explained (st : Store) (id : String) (p : Product)
    (h : PrismaProductRepository.findById st id false = some p) :
    ∃ r₀ : DbProduct,
      st.find? (fun r => decide (r.id = id) && r.available) = some r₀ ∧
      r₀ ∈ st ∧ 0 ≤ r₀.price ∧ r₀.id = id ∧ r₀.available = true ∧
      p = rowToProduct r₀ := by
  rw [PrismaProductRepository.findById] at h
  simp only [Bool.false_eq_true, if_false] at h
  cases hfind : st.find? (fun r => decide (r.id = id) && r.available) with
  | none =>
    rw [hfind] at h
    exact absurd h (by simp)
  | some r₀ =>
    rw [hfind] at h
    have hpred := List.find?_some hfind
    simp only [Bool.and_eq_true, decide_eq_true_eq] at hpred
    by_cases hpr : r₀.price < 0
    · simp only [mapToDomain, Product.construct, if_pos hpr] at h
      exact absurd h (by simp)
    · simp only [mapToDomain, Product.construct, if_neg hpr, Option.some.injEq] at h
      exact ⟨r₀, rfl, List.mem_of_find?_eq_some hfind, not_lt.mp hpr,
        hpred.1, hpred.2, h.symm⟩

theorem find_id_of_nodup (st : Store) (id : String) (r₀ : DbProduct)
    (hnd : (st.map (fun r => r.id)).Nodup) (hmem : r₀ ∈ st) (hid : r₀.id = id) :
    st.find? (fun r => decide (r.id = id)) = some r₀ := by
  induction st with
  | nil => cases hmem
  | cons r rs ih =>
    rw [List.map_cons, List.nodup_cons] at hnd
    rcases List.mem_cons.mp hmem with rfl | hmem'
    · rw [List.find?_cons_of_pos]
      simp [hid]
    · by_cases hrid : r.id = id
      · exfalso
        apply hnd.1
        rw [hrid, ← hid]
        exact List.mem_map_of_mem _ hmem'
      · rw [List.find?_cons_of_neg]
        · exact ih hnd.2 hmem'
        · simp [hrid]

theorem findById_none_of_no_available (st : Store) (id : String)
    (h : ∀ r ∈ st, r.id = id → r.available = false) :
    PrismaProductRepository.findById st id false = none := by
  have hfind : st.find? (fun r => decide (r.id = id) && r.available) = none := by
    apply List.find?_eq_none.mpr
    intro r hr
    simp only [Bool.and_eq_true, decide_eq_true_eq, not_and]
    intro hid
    simp [h r hr hid]
  rw [PrismaProductRepository.findById]
  simp [hfind]

/-- C3: deleting an existing available product succeeds once, marking the row
(and the returned Product) unavailable; the second delete of the same id —
and any delete of a nonexistent or already-unavailable id — fails with the
404 `NotFoundError`; and the soft-delete row transformation only ever takes
`available` from true to false, never back. -/
theorem delete_idempotence_boundary (st : Store) (id : String) (p : Product)
    (hwf : WFStore st) (h : PrismaProductRepository.findById st id false = some p) :
    Handlers.deleteProduct st id false =
      (st.map (PrismaProductRepository.softDeleteRow id), .ok { p with available := false }) ∧
    Handlers.deleteProduct (st.map (PrismaProductRepository.softDeleteRow id)) id false =
      (st.map (PrismaProductRepository.softDeleteRow id),
       .error (.rpcErr 404 ("Product with id #" ++ id ++ " not found or already unavailable"))) ∧
    (∀ st₂ : Store, (∀ r ∈ st₂, r.id = id → r.available = false) →
      Handlers.deleteProduct st₂ id false =
        (st₂, .error (.rpcErr 404 ("Product with id #" ++ id ++ " not found or already unavailable")))) ∧
    (∀ r : DbProduct, (PrismaProductRepository.softDeleteRow id r).available = true →
      r.available = true) := by
  obtain ⟨hnd, _⟩ := hwf
  obtain ⟨r₀, hfind, hmem, hpr, hid, hav, hp⟩ := findById_some_explained st id p h
  have hnot404 : ∀ st₂ : Store, (∀ r ∈ st₂, r.id = id → r.available = false) →
      Handlers.deleteProduct st₂ id false =
        (st₂, .error (.rpcErr 404 ("Product with id #" ++ id ++ " not found or already unavailable"))) := by
    intro st₂ h2
    rw [Handlers.deleteProduct, findById_none_of_no_available st₂ id h2]
  subst hp
  have hm : mapToDomain { r₀ with available := false } =
      .ok { rowToProduct r₀ with available := false } := by
    simp only [mapToDomain, Product.construct, rowToProduct]
    rw [if_neg (not_lt.mpr hpr)]
  have hsd : PrismaProductRepository.softDelete st id false =
      (st.map (PrismaProductRepository.softDeleteRow id),
       .ok { rowToProduct r₀ with available := false }) := by
    rw [PrismaProductRepository.softDelete]
    simp only [Bool.false_eq_true, if_false,
      find_id_of_nodup st id r₀ hnd hmem hid, hm]
  refine ⟨?_, ?_, hnot404, ?_⟩
  · rw [Handlers.deleteProduct, h, hsd]
  · apply hnot404
    intro r' hr' hid'
    obtain ⟨q, hq, rfl⟩ := List.mem_map.mp hr'
    by_cases hqid : q.id = id
    · simp [PrismaProductRepository.softDeleteRow, hqid]
    · rw [PrismaProductRepository.softDeleteRow, if_neg hqid] at hid' ⊢
      exact absurd hid' hqid
  · intro r hr
    by_cases hrid : r.id = id
    · rw [PrismaProductRepository.softDeleteRow, if_pos hrid] at hr
      exact absurd hr (by simp)
    · rwa [PrismaProductRepository.softDeleteRow, if_neg hrid] at hr

theorem delete_idempotence_boundary_witness :
    WFStore [⟨"a", "x", 5, true⟩] ∧
    PrismaProductRepository.findById [⟨"a", "x", 5, true⟩] "a" false =
      some ⟨"a", "x", 5, true⟩ ∧
    Handlers.deleteProduct [⟨"a", "x", 5, true⟩] "a" false =
      ([⟨"a", "x", 5, false⟩], .ok ⟨"a", "x", 5, false⟩) ∧
    Handlers.deleteProduct [⟨"a", "x", 5, false⟩] "a" false =
      ([⟨"a", "x", 5, false⟩],
       .error (.rpcErr 404 "Product with id #a not found or already unavailable")) := by
  have hth := delete_idempotence_boundary [⟨"a", "x", 5, true⟩] "a"
    ⟨"a", "x", 5, true⟩ (by decide) (by decide)
  refine ⟨by decide, by decide, ?_, ?_⟩
  · exact hth.1.trans (by decide)
  · have h2 := hth.2.1
    have hmap : ([⟨"a", "x", 5, true⟩] : Store).map
        (PrismaProductRepository.softDeleteRow "a") = [⟨"a", "x", 5, false⟩] := by decide
    rw [hmap] at h2
    exact h2.trans (by decide)

theorem le_mul_ceilDiv (T L : Nat) (hL : 1 ≤ L) : T ≤ ((T + L - 1) / L) * L := by
  have h1 : T + L - 1 < L * ((T + L - 1) / L + 1) := Nat.lt_mul_div_succ _ (by omega)
  have h2 : L * ((T + L - 1) / L + 1) = ((T + L - 1) / L) * L + L := by ring
  omega

theorem ceilDiv_le_of_le_mul (T L k : Nat) (hL : 1 ≤ L) (h : T ≤ k * L) :
    (T + L - 1) / L ≤ k := by
  have h1 : T + L - 1 ≤ (L - 1) + L * k := by
    rw [Nat.mul_comm] at h
    omega
  have h2 : ((L - 1) + L * k) / L = (L - 1) / L + k := Nat.add_mul_div_left _ _ (by omega)
  have h3 : (L - 1) / L = 0 := Nat.div_eq_of_lt (by omega)
  calc (T + L - 1) / L ≤ ((L - 1) + L * k) / L := Nat.div_le_div_right h1
    _ = k := by rw [h2, h3]; omega

theorem findAllProducts_run (st : Store) (page limit : Nat)
    (hwf : ∀ r ∈ st, 0 ≤ r.price) :
    Handlers.findAllProducts st page limit false =
      .ok ⟨(((st.filter (fun r => r.available)).drop ((page - 1) * limit)).take limit).map rowToProduct,
           ⟨(st.filter (fun r => r.available)).length, page,
            ((st.filter (fun r => r.available)).length + limit - 1) / limit⟩⟩ := by
  have hsub : ∀ q ∈ ((st.filter (fun r => r.available)).drop ((page - 1) * limit)).take limit,
      0 ≤ q.price := by
    intro q hq
    exact hwf q (List.mem_filter.mp (List.drop_subset _ _ (List.take_subset _ _ hq))).1
  rw [Handlers.findAllProducts, PrismaProductRepository.findAllAvailablePaginated]
  simp only [Bool.false_eq_true, if_false, mapToDomainList_ok _ hsub]

/-- C1: the pagination law.  For a store with `T` available products and a
request with `page ≥ 1`, `limit ≥ 1`: the result's `meta.total` is `T`,
`meta.page` is the requested page, `meta.lastPage` is `⌈T / limit⌉`
(witnessed by the two ceiling inequalities: `T ≤ lastPage * limit` and
`lastPage` is the least such multiplier), and the data is the slice of the
available products at offset `(page − 1) * limit` of length at most `limit`;
beyond the last page the data slice is empty while `total` / `lastPage` keep
the page-independent values. -/
theorem findAllProducts_pagination (st : Store) (page limit : Nat)
    (hp : 1 ≤ page) (hl : 1 ≤ limit) (hwf : ∀ r ∈ st, 0 ≤ r.price) :
    Handlers.findAllProducts st page limit false =
      .ok ⟨(((st.filter (fun r => r.available)).drop ((page - 1) * limit)).take limit).map rowToProduct,
           ⟨(st.filter (fun r => r.available)).length, page,
            ((st.filter (fun r => r.available)).length + limit - 1) / limit⟩⟩ ∧
    ((((st.filter (fun r => r.available)).drop ((page - 1) * limit)).take limit).map rowToProduct).length ≤ limit ∧
    (st.filter (fun r => r.available)).length ≤
      (((st.filter (fun r => r.available)).length + limit - 1) / limit) * limit ∧
    (∀ k : Nat, (st.filter (fun r => r.available)).length ≤ k * limit →
      ((st.filter (fun r => r.available)).length + limit - 1) / limit ≤ k) ∧
    (((st.filter (fun r => r.available)).length + limit - 1) / limit < page →
      (((st.filter (fun r => r.available)).drop ((page - 1) * limit)).take limit).map rowToProduct = []) := by
  refine ⟨findAllProducts_run st page limit hwf, ?_, le_mul_ceilDiv _ _ hl,
    fun k hk => ceilDiv_le_of_le_mul _ _ k hl hk, ?_⟩
  · rw [List.length_map]
    exact List.length_take_le _ _
  · intro hlast
    have hlen : (st.filter (fun r => r.available)).length ≤ (page - 1) * limit := by
      have hle : ((st.filter (fun r => r.available)).length + limit - 1) / limit ≤ page - 1 := by
        omega
      have := Nat.mul_le_mul_right limit hle
      have hceil := le_mul_ceilDiv (st.filter (fun r => r.available)).length limit hl
      omega
    rw [List.drop_eq_nil_of_le hlen]
    simp

theorem findAllProducts_pagination_witness :
    (1 : Nat) ≤ 1 ∧
    (∀ r ∈ ([⟨"a", "A", 10, true⟩, ⟨"b", "B", 20, true⟩] : Store), 0 ≤ r.price) ∧
    Handlers.findAllProducts [⟨"a", "A", 10, true⟩, ⟨"b", "B", 20, true⟩] 1 1 false =
      .ok ⟨[⟨"a", "A", 10, true⟩], ⟨2, 1, 2⟩⟩ ∧
    Handlers.findAllProducts [⟨"a", "A", 10, true⟩, ⟨"b", "B", 20, true⟩] 5 1 false =
      .ok ⟨[], ⟨2, 5, 2⟩⟩ := by
  refine ⟨le_refl 1, by decide, ?_, ?_⟩
  · exact ((findAllProducts_pagination [⟨"a", "A", 10, true⟩, ⟨"b", "B", 20, true⟩]
      1 1 (by decide) (by decide) (by decide)).1).trans (by decide)
  · exact ((findAllProducts_pagination [⟨"a", "A", 10, true⟩, ⟨"b", "B", 20, true⟩]
      5 1 (by decide) (by decide) (by decide)).1).trans (by decide)
